import Mathlib

/-!
Verification of the PJM like-day similarity engine
(`backend/src/pjm_like_day/like_day.py`).

The engine is a pure transform from hourly price tables to a ranked list of
similar historical days.  We embed it shallowly: a pandas DataFrame of hourly
rows becomes a `List Row`; machine floats become real numbers (so IEEE
artefacts such as NaN appear as the Lean conventions for the corresponding
partial operations, e.g. `x / 0 = 0`); `ValueError` becomes `Except.error`.
Row order in a list mirrors row order in the DataFrame.
-/

namespace LikeDay

/-- One hourly row of a price table: the calendar date (encoded as an
integer), the hour-ending label, and the numeric value of every feature
column (a total map from column name to value, standing for the row's
cells). -/
structure Row where
  date : ℤ
  hour : ℤ
  vals : String → ℝ

/-- One row of the DataFrame returned by `find_like_days`: columns
`date`, `rank`, `distance`, `similarity`. -/
structure MatchResult where
  date : ℤ
  rank : ℕ
  distance : ℝ
  similarity : ℝ

/-- Arithmetic mean, as `np.mean` / `pandas.Series.mean`: sum divided by
length.  (On an empty list Lean's `x / 0 = 0` convention stands in for
numpy's NaN; the engine never takes a mean of an empty column.) -/
noncomputable def mean (l : List ℝ) : ℝ := l.sum / l.length

/-- Sample standard deviation with ddof = 1, as `pandas.Series.std`:
`sqrt (Σ (x − mean)² / (n − 1))`.  For `n ≤ 1` pandas yields NaN; here the
division by zero yields `0`, so the caller's `std == 0 or isnan(std)` test
corresponds to testing `sampleStd = 0`. -/
noncomputable def sampleStd (l : List ℝ) : ℝ :=
  Real.sqrt ((l.map (fun x => (x - mean l) ^ 2)).sum / ((l.length : ℝ) - 1))

/-- Dot product of two equal-length vectors, as `np.dot`. -/
noncomputable def dot (a b : List ℝ) : ℝ := (List.zipWith (· * ·) a b).sum

/-- Euclidean norm, as `np.linalg.norm`. -/
noncomputable def norm2 (a : List ℝ) : ℝ := Real.sqrt ((a.map (fun x => x ^ 2)).sum)

/-- Embedding of `_compute_metric(diff, metric, target_flat, hist_flat)`:
one scalar distance from a diff vector (or the two flat vectors, for
cosine). -/
noncomputable def compute_metric (diff : List ℝ) (metric : String)
    (target_flat hist_flat : Option (List ℝ)) : ℝ :=
  if metric = "mae" then mean (diff.map (fun x => |x|))
  else if metric = "rmse" then Real.sqrt (mean (diff.map (fun x => x ^ 2)))
  else if metric = "euclidean" then Real.sqrt ((diff.map (fun x => x ^ 2)).sum)
  else if metric = "cosine" then
    match target_flat, hist_flat with
    | some t, some h =>
      if norm2 t * norm2 h = 0 then 1
      else 1 - dot t h / (norm2 t * norm2 h)
    | _, _ => mean (diff.map (fun x => |x|))
  else mean (diff.map (fun x => |x|))

/-- Embedding of `df.sort_values(hour_col)` on one day's rows: a stable
ascending sort by the hour column. -/
def sortByHour (l : List Row) : List Row :=
  List.insertionSort (fun a b => a.hour ≤ b.hour) l

/-- The distinct dates of `df_hist` in ascending order: `df.groupby(date_col)`
iterates its groups in sorted key order. -/
def groupDates (l : List Row) : List ℤ :=
  List.insertionSort (· ≤ ·) (l.map Row.date).dedup

/-- The rows of one `groupby(date_col)` group, in original row order. -/
def dateGroup (l : List Row) (dt : ℤ) : List Row :=
  l.filter (fun r => r.date = dt)

/-- Per-feature raw distances of one surviving historical day (pass 1 keeps,
for each day, the date and one raw distance per feature column). -/
structure RawRow where
  date : ℤ
  dists : String → ℝ

/-- Pass 1 of `find_like_days`: for every historical date, in groupby order,
whose hour-count equals the target's, the per-feature raw distances between
the hour-sorted target values and the hour-sorted historical values.  Days
with a different hour-count are skipped. -/
noncomputable def rawResults (df_target df_hist : List Row)
    (feature_cols : List String) (metric : String) : List RawRow :=
  let target_sorted := sortByHour df_target
  let n_hours := target_sorted.length
  (groupDates df_hist).filterMap (fun dt =>
    let hist_sorted := sortByHour (dateGroup df_hist dt)
    if hist_sorted.length = n_hours then
      some { date := dt
             dists := fun col =>
               let t_vals := target_sorted.map (fun r => r.vals col)
               let h_vals := hist_sorted.map (fun r => r.vals col)
               compute_metric (List.zipWith (· - ·) t_vals h_vals) metric
                 (some t_vals) (some h_vals) }
    else none)

/-- Mean and standard deviation of one feature's raw distances across the
whole surviving pool, with the code's guard: `if std == 0 or np.isnan(std)`
substitute `1.0` (the NaN of a size-1 pool appears as `sampleStd = 0` in
this real-valued model, so one test covers both arms). -/
noncomputable def featStats (raw : List RawRow) (col : String) : ℝ × ℝ :=
  let ds := raw.map (fun r => r.dists col)
  let std := sampleStd ds
  (mean ds, if std = 0 then 1 else std)

/-- A historical day with its final blended scalar distance. -/
structure BlendRow where
  date : ℤ
  distance : ℝ

/-- Pass 2 of `find_like_days`: z-score-normalize each feature's raw
distances with `featStats`, accumulate `weights[col] * normalized` over the
feature columns starting from `0.0`, and divide by the weight sum. -/
noncomputable def blend (raw : List RawRow) (feature_cols : List String)
    (weights : String → ℝ) : List BlendRow :=
  let weight_sum := (feature_cols.map weights).sum
  raw.map (fun r =>
    { date := r.date
      distance :=
        (feature_cols.map (fun col =>
          weights col * ((r.dists col - (featStats raw col).1)
            / (featStats raw col).2))).sum / weight_sum })

/-- Embedding of `df.nsmallest(n, "distance")`: the first `n` rows of the
stable ascending sort by distance (pandas' documented `keep="first"`
behaviour). -/
noncomputable def nsmallest (n : ℕ) (l : List BlendRow) : List BlendRow :=
  (List.insertionSort (fun a b => a.distance ≤ b.distance) l).take n

/-- Maximum of a column, as `pandas.Series.max` (0 on the empty list, which
the engine never consults). -/
noncomputable def listMax : List ℝ → ℝ
  | [] => 0
  | [x] => x
  | x :: y :: l => max x (listMax (y :: l))

/-- Minimum of a column, as `pandas.Series.min` (0 on the empty list, which
the engine never consults). -/
noncomputable def listMin : List ℝ → ℝ
  | [] => 0
  | [x] => x
  | x :: y :: l => min x (listMin (y :: l))

/-- Ranks `i, i+1, ...` assigned down the selected rows (the code writes
`np.arange(1, len + 1)` into the `rank` column), with the similarity column
computed from each row's distance. -/
noncomputable def rankFrom (simOf : ℝ → ℝ) : ℕ → List BlendRow → List MatchResult
  | _, [] => []
  | i, b :: bs =>
    { date := b.date, rank := i, distance := b.distance
      similarity := simOf b.distance } :: rankFrom simOf (i + 1) bs

/-- Steps 4 and 5 of `find_like_days`: select the `n_neighbors` smallest
distances, assign ranks 1.., and attach similarity
`1 − (distance − min)/(max − min)` when the selected range is positive,
otherwise `1.0`. -/
noncomputable def finalize (n_neighbors : ℕ) (blended : List BlendRow) :
    List MatchResult :=
  let sel := nsmallest n_neighbors blended
  let max_dist := listMax (sel.map BlendRow.distance)
  let min_dist := listMin (sel.map BlendRow.distance)
  let simOf : ℝ → ℝ := fun d =>
    if max_dist - min_dist > 0 then 1 - (d - min_dist) / (max_dist - min_dist)
    else 1
  rankFrom simOf 1 sel

/-- Python dict lookup `weights[col]` on an association list (dict keys are
unique, so the first hit is the entry; a missing key, impossible in the
code's uses, yields 0). -/
def alookup : List (String × ℝ) → String → ℝ
  | [], _ => 0
  | p :: t, k => if p.1 = k then p.2 else alookup t k

/-- The feature columns the ranking runs over: the keys of `feature_weights`
when it is a non-empty dict, otherwise the `feature_cols` argument. -/
def resolveCols (feature_weights : Option (List (String × ℝ)))
    (feature_cols : List String) : List String :=
  match feature_weights with
  | some fw => if fw.length > 0 then fw.map Prod.fst else feature_cols
  | none => feature_cols

/-- The weight of each column: dict lookup into a non-empty `feature_weights`,
otherwise the constant 1.0 (the code builds `{col: 1.0 for col in
feature_cols}` and only ever reads it at those columns). -/
noncomputable def resolveWeights (feature_weights : Option (List (String × ℝ))) :
    String → ℝ :=
  match feature_weights with
  | some fw => if fw.length > 0 then alookup fw else fun _ => 1
  | none => fun _ => 1

/-- `configs.FEATURE_COLS`, the default feature columns. -/
def FEATURE_COLS : List String :=
  ["lmp_total", "lmp_system_energy_price", "lmp_congestion_price",
   "lmp_marginal_loss_price"]

/-- Embedding of `find_like_days(df_target, df_hist, feature_weights,
feature_cols, n_neighbors, metric)`.  The two `raise ValueError` sites
become `Except.error`; a successful run returns the output DataFrame's rows
(columns date, rank, distance, similarity). -/
noncomputable def find_like_days (df_target df_hist : List Row)
    (feature_weights : Option (List (String × ℝ)))
    (feature_cols : List String) (n_neighbors : ℕ) (metric : String) :
    Except String (List MatchResult) :=
  let cols := resolveCols feature_weights feature_cols
  let weights := resolveWeights feature_weights
  if (sortByHour df_target).length = 0 then
    Except.error "Target date has no hourly data"
  else
    match rawResults df_target df_hist cols metric with
    | [] => Except.error "No historical days matched the target hours"
    | r :: rs =>
      Except.ok (finalize n_neighbors (blend (r :: rs) cols weights))

/-- The final distance as the specification words it (step 3): the sum over
the feature keys of `weight_k × (raw_distance_k − mean_k) / std_k`, divided
by the sum of all weights, where `mean_k` and `std_k` are the mean and the
standard deviation of feature `k`'s raw distances across the whole surviving
pool.  This definition follows the spec's sentence, to be compared with the
code's `blend`; note it divides by the unsubstituted standard deviation. -/
noncomputable def specBlendDistance (raw : List RawRow) (cols : List String)
    (weights : String → ℝ) (r : RawRow) : ℝ :=
  (cols.map (fun col =>
    weights col *
      ((r.dists col - mean (raw.map (fun q => q.dists col))) /
        sampleStd (raw.map (fun q => q.dists col))))).sum /
  (cols.map weights).sum

instance : IsTotal BlendRow (fun a b => a.distance ≤ b.distance) :=
  ⟨fun a b => le_total _ _⟩

instance : IsTrans BlendRow (fun a b => a.distance ≤ b.distance) :=
  ⟨fun _ _ _ hab hbc => le_trans hab hbc⟩

/-! Concrete evaluation.  `cxTarget` is a one-hour target day.  `cxHist`
holds three comparable one-hour days whose mae distances to the target are
0, 1 and 2 (so the pool's sample standard deviation is exactly 1), plus a
date with two hourly rows, whose hour-count differs from the target's.
`czHist` holds two days identical to the target (a degenerate pool: all raw
distances equal). -/

/-- A concrete target day: one hourly row, every feature valued 10. -/
def cxTarget : List Row := [⟨100, 1, fun _ => 10⟩]

/-- A concrete historical table: dates 1, 2, 3 with one hourly row each
(values 10, 11, 12), and date 4 with two hourly rows. -/
def cxHist : List Row :=
  [⟨1, 1, fun _ => 10⟩, ⟨2, 1, fun _ => 11⟩, ⟨3, 1, fun _ => 12⟩,
   ⟨4, 1, fun _ => 10⟩, ⟨4, 2, fun _ => 10⟩]

/-- A degenerate historical table: dates 1 and 2, each with a single hourly
row identical to the target's. -/
def czHist : List Row :=
  [⟨1, 1, fun _ => 10⟩, ⟨2, 1, fun _ => 10⟩]

/-! General lemmas about the embedded operations. -/

lemma length_sortByHour (l : List Row) : (sortByHour l).length = l.length :=
  (List.perm_insertionSort _ l).length_eq

lemma mem_groupDates {l : List Row} {dt : ℤ} :
    dt ∈ groupDates l ↔ dt ∈ l.map Row.date := by
  unfold groupDates
  rw [(List.perm_insertionSort _ _).mem_iff, List.mem_dedup]

lemma rawResults_mem_date {df_target df_hist : List Row} {cols : List String}
    {metric : String} {r : RawRow}
    (hr : r ∈ rawResults df_target df_hist cols metric) :
    (dateGroup df_hist r.date).length = df_target.length ∧
      r.date ∈ df_hist.map Row.date := by
  unfold rawResults at hr
  rw [List.mem_filterMap] at hr
  obtain ⟨dt, hdt, heq⟩ := hr
  by_cases hg : (sortByHour (dateGroup df_hist dt)).length =
      (sortByHour df_target).length
  · rw [if_pos hg] at heq
    obtain rfl : r.date = dt := by
      cases heq.symm with
      | refl => rfl
    refine ⟨?_, mem_groupDates.mp hdt⟩
    rw [length_sortByHour, length_sortByHour] at hg
    exact hg
  · rw [if_neg hg] at heq
    cases heq

lemma rawResults_eq_nil_iff {df_target df_hist : List Row} {cols : List String}
    {metric : String} :
    rawResults df_target df_hist cols metric = [] ↔
      ∀ dt ∈ df_hist.map Row.date,
        (dateGroup df_hist dt).length ≠ df_target.length := by
  unfold rawResults
  rw [List.filterMap_eq_nil_iff]
  constructor
  · intro h dt hdt hlen
    have h1 := h dt (mem_groupDates.mpr hdt)
    rw [if_pos (by rw [length_sortByHour, length_sortByHour]; exact hlen)] at h1
    cases h1
  · intro h dt hdt
    rw [if_neg ?_]
    rw [length_sortByHour, length_sortByHour]
    exact h dt (mem_groupDates.mp hdt)

lemma eq_mean_of_sampleStd_eq_zero {l : List ℝ} (h : sampleStd l = 0)
    {x : ℝ} (hx : x ∈ l) : x = mean l := by
  by_cases h1 : l.length = 1
  · match l, h1 with
    | [a], _ =>
      rw [List.mem_singleton] at hx
      subst hx
      simp [mean]
  · have h0 : l.length ≠ 0 := by
      intro h0
      rw [List.length_eq_zero] at h0
      subst h0
      cases hx
    have h2 : 2 ≤ l.length := by omega
    set S := (l.map (fun y => (y - mean l) ^ 2)).sum with hS
    have hS0 : 0 ≤ S := by
      apply List.sum_nonneg
      intro y hy
      rw [List.mem_map] at hy
      obtain ⟨z, _, rfl⟩ := hy
      positivity
    have hd : (0 : ℝ) < (l.length : ℝ) - 1 := by
      have : (2 : ℝ) ≤ (l.length : ℝ) := by exact_mod_cast h2
      linarith
    have hdiv : S / ((l.length : ℝ) - 1) ≤ 0 := by
      have := Real.sqrt_eq_zero'.mp h
      exact this
    have hSz : S = 0 := by
      rcases div_nonpos_iff.mp hdiv with ⟨_, hb⟩ | ⟨ha, _⟩
      · linarith
      · linarith
    have hterm : (x - mean l) ^ 2 ≤ S :=
      List.single_le_sum
        (by
          intro y hy
          rw [List.mem_map] at hy
          obtain ⟨z, _, rfl⟩ := hy
          positivity)
        _ (List.mem_map_of_mem _ hx)
    have : (x - mean l) ^ 2 = 0 := le_antisymm (hSz ▸ hterm) (by positivity)
    have := (pow_eq_zero_iff two_ne_zero).mp this
    linarith [this]

lemma normalized_substituted_eq {l : List ℝ} {x : ℝ} (hx : x ∈ l) :
    (x - mean l) / (if sampleStd l = 0 then 1 else sampleStd l) =
      (x - mean l) / sampleStd l := by
  by_cases h : sampleStd l = 0
  · rw [if_pos h, h, eq_mean_of_sampleStd_eq_zero h hx]
    simp
  · rw [if_neg h]

lemma le_listMax {l : List ℝ} {x : ℝ} (hx : x ∈ l) : x ≤ listMax l := by
  induction l with
  | nil => cases hx
  | cons a t ih =>
    cases t with
    | nil =>
      rw [List.mem_singleton] at hx
      subst hx
      simp [listMax]
    | cons b t' =>
      rw [List.mem_cons] at hx
      rcases hx with rfl | hx
      · exact le_max_left _ _
      · exact le_trans (ih hx) (le_max_right _ _)

lemma listMin_le {l : List ℝ} {x : ℝ} (hx : x ∈ l) : listMin l ≤ x := by
  induction l with
  | nil => cases hx
  | cons a t ih =>
    cases t with
    | nil =>
      rw [List.mem_singleton] at hx
      subst hx
      simp [listMin]
    | cons b t' =>
      rw [List.mem_cons] at hx
      rcases hx with rfl | hx
      · exact min_le_left _ _
      · exact le_trans (min_le_right _ _) (ih hx)

lemma listMax_mem {l : List ℝ} (h : l ≠ []) : listMax l ∈ l := by
  induction l with
  | nil => exact absurd rfl h
  | cons a t ih =>
    cases t with
    | nil => simp [listMax]
    | cons b t' =>
      rcases max_choice a (listMax (b :: t')) with h1 | h1
      · rw [listMax, h1]
        exact List.mem_cons_self _ _
      · rw [listMax, h1]
        exact List.mem_cons_of_mem _ (ih (by simp))

lemma listMin_mem {l : List ℝ} (h : l ≠ []) : listMin l ∈ l := by
  induction l with
  | nil => exact absurd rfl h
  | cons a t ih =>
    cases t with
    | nil => simp [listMin]
    | cons b t' =>
      rcases min_choice a (listMin (b :: t')) with h1 | h1
      · rw [listMin, h1]
        exact List.mem_cons_self _ _
      · rw [listMin, h1]
        exact List.mem_cons_of_mem _ (ih (by simp))

lemma rankFrom_map_rank (simOf : ℝ → ℝ) (i : ℕ) (l : List BlendRow) :
    (rankFrom simOf i l).map MatchResult.rank = List.range' i l.length := by
  induction l generalizing i with
  | nil => simp [rankFrom]
  | cons b bs ih => simp [rankFrom, List.range'_succ, ih]

lemma rankFrom_map_distance (simOf : ℝ → ℝ) (i : ℕ) (l : List BlendRow) :
    (rankFrom simOf i l).map MatchResult.distance = l.map BlendRow.distance := by
  induction l generalizing i with
  | nil => simp [rankFrom]
  | cons b bs ih => simp [rankFrom, ih]

lemma mem_rankFrom {simOf : ℝ → ℝ} {i : ℕ} {l : List BlendRow}
    {m : MatchResult} (hm : m ∈ rankFrom simOf i l) :
    ∃ b ∈ l, m.date = b.date ∧ m.distance = b.distance ∧
      m.similarity = simOf b.distance := by
  induction l generalizing i with
  | nil => cases hm
  | cons b bs ih =>
    rw [rankFrom, List.mem_cons] at hm
    rcases hm with rfl | hm
    · exact ⟨b, List.mem_cons_self _ _, rfl, rfl, rfl⟩
    · obtain ⟨b', hb', h⟩ := ih hm
      exact ⟨b', List.mem_cons_of_mem _ hb', h⟩

lemma rankFrom_ne_nil {simOf : ℝ → ℝ} {i : ℕ} {l : List BlendRow}
    (h : l ≠ []) : rankFrom simOf i l ≠ [] := by
  cases l with
  | nil => exact absurd rfl h
  | cons b bs => simp [rankFrom]

lemma sorted_nsmallest (n : ℕ) (l : List BlendRow) :
    List.Sorted (fun a b : BlendRow => a.distance ≤ b.distance)
      (nsmallest n l) :=
  List.Pairwise.sublist (List.take_sublist _ _)
    (List.sorted_insertionSort _ l)

lemma mem_nsmallest {n : ℕ} {l : List BlendRow} {b : BlendRow}
    (hb : b ∈ nsmallest n l) : b ∈ l :=
  (List.perm_insertionSort (fun a b : BlendRow => a.distance ≤ b.distance)
    l).mem_iff.mp (List.mem_of_mem_take hb)

lemma length_nsmallest (n : ℕ) (l : List BlendRow) :
    (nsmallest n l).length = min n l.length := by
  rw [nsmallest, List.length_take,
    (List.perm_insertionSort (fun a b : BlendRow => a.distance ≤ b.distance)
      l).length_eq]

lemma find_like_days_ok {df_target df_hist : List Row}
    {fw : Option (List (String × ℝ))} {fcols : List String} {n : ℕ}
    {metric : String} {res : List MatchResult}
    (h : find_like_days df_target df_hist fw fcols n metric = Except.ok res) :
    res = finalize n
        (blend (rawResults df_target df_hist (resolveCols fw fcols) metric)
          (resolveCols fw fcols) (resolveWeights fw)) ∧
      rawResults df_target df_hist (resolveCols fw fcols) metric ≠ [] ∧
      df_target ≠ [] := by
  unfold find_like_days at h
  by_cases h0 : (sortByHour df_target).length = 0
  · rw [if_pos h0] at h
    cases h
  · rw [if_neg h0] at h
    have htgt : df_target ≠ [] := by
      intro hnil
      apply h0
      rw [length_sortByHour, hnil, List.length_nil]
    rcases hraw : rawResults df_target df_hist (resolveCols fw fcols) metric
      with _ | ⟨r, rs⟩
    · rw [hraw] at h
      cases h
    · rw [hraw] at h
      cases h with
      | refl => exact ⟨by simp [hraw], by simp [hraw], htgt⟩

lemma length_blend (raw : List RawRow) (cols : List String) (w : String → ℝ) :
    (blend raw cols w).length = raw.length := by
  simp [blend]

lemma mem_blend {raw : List RawRow} {cols : List String} {w : String → ℝ}
    {b : BlendRow} (hb : b ∈ blend raw cols w) :
    ∃ r ∈ raw, b.date = r.date ∧
      b.distance =
        (cols.map (fun col =>
          w col * ((r.dists col - (featStats raw col).1) /
            (featStats raw col).2))).sum / (cols.map w).sum := by
  unfold blend at hb
  rw [List.mem_map] at hb
  obtain ⟨r, hr, rfl⟩ := hb
  exact ⟨r, hr, rfl, rfl⟩

lemma blend_eq_spec (raw : List RawRow) (cols : List String) (w : String → ℝ) :
    blend raw cols w =
      raw.map (fun r =>
        { date := r.date, distance := specBlendDistance raw cols w r }) := by
  unfold blend specBlendDistance
  apply List.map_congr_left
  intro r hr
  congr 1
  congr 1
  apply congrArg List.sum
  apply List.map_congr_left
  intro col _
  simp only [featStats]
  congr 1
  exact normalized_substituted_eq (List.mem_map_of_mem _ hr)

lemma sampleStd_eq_zero_of_all_eq {l : List ℝ}
    (h : ∀ x ∈ l, ∀ y ∈ l, x = y) : sampleStd l = 0 := by
  cases l with
  | nil => norm_num [sampleStd, mean]
  | cons a t =>
    have hmean : mean (a :: t) = a := by
      have hall : ∀ x ∈ a :: t, x = a := fun x hx =>
        h x hx a (List.mem_cons_self _ _)
      have hsum := List.sum_eq_card_nsmul (a :: t) a hall
      rw [mean, hsum, nsmul_eq_mul]
      have : ((a :: t).length : ℝ) ≠ 0 := by
        rw [List.length_cons]
        push_cast
        positivity
      field_simp
    have hz : ((a :: t).map (fun x => (x - mean (a :: t)) ^ 2)).sum = 0 := by
      apply List.sum_eq_zero
      intro y hy
      rw [List.mem_map] at hy
      obtain ⟨z, hz, rfl⟩ := hy
      rw [hmean, h z hz a (List.mem_cons_self _ _)]
      ring
    rw [sampleStd, hz, zero_div, Real.sqrt_zero]

lemma dot_self (t : List ℝ) : dot t t = (t.map (fun x => x ^ 2)).sum := by
  induction t with
  | nil => simp [dot]
  | cons a t' ih =>
    simp only [dot, List.zipWith_cons_cons, List.map_cons, List.sum_cons] at *
    rw [ih, sq]

lemma sum_sq_pos_of_exists_ne {t : List ℝ} (h : ∃ x ∈ t, x ≠ 0) :
    0 < (t.map (fun x => x ^ 2)).sum := by
  obtain ⟨x, hx, hxne⟩ := h
  have h1 : x ^ 2 ≤ (t.map (fun y => y ^ 2)).sum :=
    List.single_le_sum
      (by
        intro y hy
        rw [List.mem_map] at hy
        obtain ⟨z, _, rfl⟩ := hy
        positivity)
      _ (List.mem_map_of_mem _ hx)
  have h2 : 0 < x ^ 2 := by positivity
  linarith

lemma finalize_def (n : ℕ) (blended : List BlendRow) :
    finalize n blended =
      rankFrom (fun d =>
        if listMax ((nsmallest n blended).map BlendRow.distance) -
            listMin ((nsmallest n blended).map BlendRow.distance) > 0 then
          1 - (d - listMin ((nsmallest n blended).map BlendRow.distance)) /
            (listMax ((nsmallest n blended).map BlendRow.distance) -
              listMin ((nsmallest n blended).map BlendRow.distance))
        else 1) 1 (nsmallest n blended) := rfl

lemma cx_groupDates : groupDates cxHist = [1, 2, 3, 4] := by
  simp [groupDates, cxHist, List.dedup]

lemma cx_raw :
    rawResults cxTarget cxHist ["f"] "mae" =
      [⟨1, fun _ => 0⟩, ⟨2, fun _ => 1⟩, ⟨3, fun _ => 2⟩] := by
  simp only [rawResults, cx_groupDates]
  norm_num [dateGroup, cxHist, cxTarget, sortByHour, List.insertionSort,
    List.orderedInsert, List.filterMap, compute_metric, mean]

lemma cx_blend :
    blend [⟨1, fun _ => 0⟩, ⟨2, fun _ => 1⟩, ⟨3, fun _ => 2⟩] ["f"]
        (alookup [("f", 1)]) =
      [⟨1, -1⟩, ⟨2, 0⟩, ⟨3, 1⟩] := by
  norm_num [blend, featStats, sampleStd, mean, alookup,
    Real.sqrt_one]

lemma cx_finalize :
    finalize 5 [⟨1, -1⟩, ⟨2, 0⟩, ⟨3, 1⟩] =
      [⟨1, 1, -1, 1⟩, ⟨2, 2, 0, 1 / 2⟩, ⟨3, 3, 1, 0⟩] := by
  have hsel : nsmallest 5 [⟨1, -1⟩, ⟨2, 0⟩, ⟨3, 1⟩] =
      [⟨1, -1⟩, ⟨2, 0⟩, ⟨3, 1⟩] := by
    have hsorted : List.Sorted (fun a b : BlendRow => a.distance ≤ b.distance)
        [⟨1, -1⟩, ⟨2, 0⟩, ⟨3, 1⟩] := by
      norm_num [List.sorted_cons]
    rw [nsmallest, hsorted.insertionSort_eq]
    rfl
  have hmax : listMax [(-1 : ℝ), 0, 1] = 1 := by
    rw [show listMax [(-1 : ℝ), 0, 1] = max (-1) (max 0 1) from rfl,
      max_eq_right (by norm_num : (0 : ℝ) ≤ 1),
      max_eq_right (by norm_num : (-1 : ℝ) ≤ 1)]
  have hmin : listMin [(-1 : ℝ), 0, 1] = -1 := by
    rw [show listMin [(-1 : ℝ), 0, 1] = min (-1) (min 0 1) from rfl,
      min_eq_left (by norm_num : (0 : ℝ) ≤ 1),
      min_eq_left (by norm_num : (-1 : ℝ) ≤ 0)]
  rw [finalize_def, hsel,
    show ([⟨1, -1⟩, ⟨2, 0⟩, ⟨3, 1⟩] : List BlendRow).map BlendRow.distance =
      [-1, 0, 1] from rfl, hmax, hmin]
  norm_num [rankFrom]

lemma cx_eval :
    find_like_days cxTarget cxHist (some [("f", 1)]) FEATURE_COLS 5 "mae" =
      Except.ok [⟨1, 1, -1, 1⟩, ⟨2, 2, 0, 1 / 2⟩, ⟨3, 3, 1, 0⟩] := by
  have hcols : resolveCols (some [("f", 1)]) FEATURE_COLS = ["f"] := by
    simp [resolveCols]
  have hw : resolveWeights (some [("f", (1 : ℝ))]) = alookup [("f", 1)] := by
    simp [resolveWeights]
  simp only [find_like_days, hcols, hw, cx_raw, cx_blend, cx_finalize]
  norm_num [cxTarget, sortByHour, List.insertionSort]

lemma cz_raw :
    rawResults cxTarget czHist ["f"] "mae" =
      [⟨1, fun _ => 0⟩, ⟨2, fun _ => 0⟩] := by
  have hdates : groupDates czHist = [1, 2] := by
    simp [groupDates, czHist, List.dedup]
  simp only [rawResults, hdates]
  norm_num [dateGroup, czHist, cxTarget, sortByHour, List.insertionSort,
    List.orderedInsert, List.filterMap, compute_metric, mean]

lemma cz_blend :
    blend [⟨1, fun _ => 0⟩, ⟨2, fun _ => 0⟩] ["f"] (alookup [("f", 1)]) =
      [⟨1, 0⟩, ⟨2, 0⟩] := by
  norm_num [blend, featStats, sampleStd, mean, alookup]

lemma cz_finalize :
    finalize 5 [⟨1, 0⟩, ⟨2, 0⟩] = [⟨1, 1, 0, 1⟩, ⟨2, 2, 0, 1⟩] := by
  norm_num [finalize, nsmallest, List.insertionSort, List.orderedInsert,
    listMax, listMin, rankFrom]

lemma cz_eval :
    find_like_days cxTarget czHist (some [("f", 1)]) FEATURE_COLS 5 "mae" =
      Except.ok [⟨1, 1, 0, 1⟩, ⟨2, 2, 0, 1⟩] := by
  have hcols : resolveCols (some [("f", 1)]) FEATURE_COLS = ["f"] := by
    simp [resolveCols]
  have hw : resolveWeights (some [("f", (1 : ℝ))]) = alookup [("f", 1)] := by
    simp [resolveWeights]
  simp only [find_like_days, hcols, hw, cz_raw, cz_blend, cz_finalize]
  norm_num [cxTarget, sortByHour, List.insertionSort]

lemma alookup_scale (c : ℝ) (fw : List (String × ℝ)) (k : String) :
    alookup (fw.map (fun p => (p.1, c * p.2))) k = c * alookup fw k := by
  induction fw with
  | nil => simp [alookup]
  | cons p t ih =>
    by_cases hp : p.1 = k <;> simp [alookup, hp, ih]

lemma blend_scale (raw : List RawRow) (cols : List String) (w : String → ℝ)
    (c : ℝ) (hc : c ≠ 0) :
    blend raw cols (fun k => c * w k) = blend raw cols w := by
  simp only [blend]
  apply List.map_congr_left
  intro r _
  congr 1
  have h1 : (cols.map (fun col =>
      c * w col * ((r.dists col - (featStats raw col).1) /
        (featStats raw col).2))).sum =
      c * (cols.map (fun col =>
        w col * ((r.dists col - (featStats raw col).1) /
          (featStats raw col).2))).sum := by
    rw [← List.sum_map_mul_left]
    apply congrArg List.sum
    apply List.map_congr_left
    intro col _
    ring
  have h2 : (cols.map (fun k => c * w k)).sum = c * (cols.map w).sum :=
    List.sum_map_mul_left cols w c
  rw [h1, h2, mul_div_mul_left _ _ hc]

lemma finalize_similarity (n : ℕ) (blended : List BlendRow) :
    (∀ m ∈ finalize n blended, 0 ≤ m.similarity ∧ m.similarity ≤ 1) ∧
    (listMin ((finalize n blended).map MatchResult.distance) <
        listMax ((finalize n blended).map MatchResult.distance) →
      ∀ m ∈ finalize n blended,
        m.similarity =
          1 - (m.distance -
              listMin ((finalize n blended).map MatchResult.distance)) /
            (listMax ((finalize n blended).map MatchResult.distance) -
              listMin ((finalize n blended).map MatchResult.distance)) ∧
        (m.distance =
            listMin ((finalize n blended).map MatchResult.distance) →
          m.similarity = 1) ∧
        (m.distance =
            listMax ((finalize n blended).map MatchResult.distance) →
          m.similarity = 0)) ∧
    (listMax ((finalize n blended).map MatchResult.distance) =
        listMin ((finalize n blended).map MatchResult.distance) →
      ∀ m ∈ finalize n blended, m.similarity = 1) := by
  have hD : (finalize n blended).map MatchResult.distance =
      (nsmallest n blended).map BlendRow.distance := by
    rw [finalize_def, rankFrom_map_distance]
  rw [hD]
  set M := listMax ((nsmallest n blended).map BlendRow.distance) with hM
  set m0 := listMin ((nsmallest n blended).map BlendRow.distance) with hm0
  have key : ∀ m ∈ finalize n blended, ∃ b ∈ nsmallest n blended,
      m.distance = b.distance ∧
      m.similarity =
        (if M - m0 > 0 then 1 - (b.distance - m0) / (M - m0) else 1) := by
    intro m hm
    rw [finalize_def] at hm
    obtain ⟨b, hb, _, hd, hs⟩ := mem_rankFrom hm
    exact ⟨b, hb, hd, hs⟩
  refine ⟨?_, ?_, ?_⟩
  · intro m hm
    obtain ⟨b, hb, _, hs⟩ := key m hm
    have hble : m0 ≤ b.distance := listMin_le (List.mem_map_of_mem _ hb)
    have hbge : b.distance ≤ M := le_listMax (List.mem_map_of_mem _ hb)
    rw [hs]
    split
    · next hgt =>
      have h1 : (b.distance - m0) / (M - m0) ≤ 1 :=
        (div_le_one hgt).mpr (by linarith)
      have h2 : 0 ≤ (b.distance - m0) / (M - m0) :=
        div_nonneg (by linarith) (le_of_lt hgt)
      constructor <;> linarith
    · norm_num
  · intro hlt m hm
    obtain ⟨b, hb, hd, hs⟩ := key m hm
    have hgt : M - m0 > 0 := by linarith
    refine ⟨?_, ?_, ?_⟩
    · rw [hs, if_pos hgt, hd]
    · intro hmin
      rw [hs, if_pos hgt, ← hd, hmin, sub_self, zero_div, sub_zero]
    · intro hmax
      rw [hs, if_pos hgt, ← hd, hmax, div_self (ne_of_gt hgt), sub_self]
  · intro heq m hm
    obtain ⟨b, hb, _, hs⟩ := key m hm
    rw [hs, if_neg (by rw [heq]; simp)]

/-! Claim theorems. -/

/-- C7: the cosine raw distance is 1 minus the dot product of the target and
historical hourly vectors divided by the product of their Euclidean norms;
when either norm is zero the distance is exactly 1 and no division by zero
occurs; the distance between identical non-zero vectors is exactly 0 and
between a zero vector and any vector exactly 1. -/
theorem cosine_metric_correct (diff t h : List ℝ) :
    (norm2 t * norm2 h ≠ 0 →
        compute_metric diff "cosine" (some t) (some h) =
          1 - dot t h / (norm2 t * norm2 h)) ∧
    (norm2 t = 0 ∨ norm2 h = 0 →
        compute_metric diff "cosine" (some t) (some h) = 1) ∧
    ((∃ x ∈ t, x ≠ 0) → compute_metric diff "cosine" (some t) (some t) = 0) ∧
    ((∀ x ∈ t, x = 0) → compute_metric diff "cosine" (some t) (some h) = 1) := by
  have hreduce : ∀ (a b : List ℝ),
      compute_metric diff "cosine" (some a) (some b) =
        if norm2 a * norm2 b = 0 then 1
        else 1 - dot a b / (norm2 a * norm2 b) := by
    intro a b
    simp [compute_metric]
  refine ⟨?_, ?_, ?_, ?_⟩
  · intro hne
    rw [hreduce, if_neg hne]
  · intro hz
    have hzz : norm2 t * norm2 h = 0 := by
      rcases hz with hz | hz
      · rw [hz, zero_mul]
      · rw [hz, mul_zero]
    rw [hreduce, if_pos hzz]
  · intro hex
    have hS : 0 < (t.map (fun x => x ^ 2)).sum := sum_sq_pos_of_exists_ne hex
    have hn : norm2 t * norm2 t = (t.map (fun x => x ^ 2)).sum :=
      Real.mul_self_sqrt (le_of_lt hS)
    rw [hreduce, if_neg (by rw [hn]; exact ne_of_gt hS), dot_self, hn,
      div_self (ne_of_gt hS), sub_self]
  · intro hall
    have hS : (t.map (fun x => x ^ 2)).sum = 0 := by
      apply List.sum_eq_zero
      intro y hy
      rw [List.mem_map] at hy
      obtain ⟨z, hz, rfl⟩ := hy
      rw [hall z hz]
      ring
    have hn : norm2 t = 0 := by rw [norm2, hS, Real.sqrt_zero]
    rw [hreduce, if_pos (by rw [hn, zero_mul])]

/-- Witness for C7 at concrete vectors. -/
theorem cosine_metric_correct_witness :
    compute_metric [0] "cosine" (some [1]) (some [2]) =
        1 - dot [1] [2] / (norm2 [1] * norm2 [2]) ∧
      compute_metric [0] "cosine" (some [0]) (some [2]) = 1 ∧
      compute_metric [0] "cosine" (some [1]) (some [1]) = 0 ∧
      compute_metric [0] "cosine" (some [0]) (some [3]) = 1 := by
  refine ⟨(cosine_metric_correct [0] [1] [2]).1 ?_,
          (cosine_metric_correct [0] [0] [2]).2.1 (Or.inl ?_),
          (cosine_metric_correct [0] [1] [1]).2.2.1 ⟨1, by simp, one_ne_zero⟩,
          (cosine_metric_correct [0] [0] [3]).2.2.2 (by simp)⟩
  · have h1 : norm2 [1] = 1 := by
      norm_num [norm2, Real.sqrt_one]
    have h2 : (0 : ℝ) < norm2 [2] := by
      rw [norm2]
      apply Real.sqrt_pos.mpr
      norm_num
    rw [h1, one_mul]
    exact ne_of_gt h2
  · norm_num [norm2, Real.sqrt_zero]

/-- C9: a metric name outside mae, rmse, euclidean, cosine is not an error:
`_compute_metric` returns exactly the mae distance, and `find_like_days`
returns exactly what it returns for mae. -/
theorem unknown_metric_equals_mae (m : String) (h1 : m ≠ "mae")
    (h2 : m ≠ "rmse") (h3 : m ≠ "euclidean") (h4 : m ≠ "cosine") :
    (∀ diff t h, compute_metric diff m t h = compute_metric diff "mae" t h) ∧
    ∀ df_target df_hist fw fcols n,
      find_like_days df_target df_hist fw fcols n m =
        find_like_days df_target df_hist fw fcols n "mae" := by
  have hcm : ∀ diff t h, compute_metric diff m t h =
      compute_metric diff "mae" t h := by
    intro diff t h
    unfold compute_metric
    rw [if_neg h1, if_neg h2, if_neg h3, if_neg h4, if_pos rfl]
  refine ⟨hcm, ?_⟩
  intro df_target df_hist fw fcols n
  have hraw : ∀ cols, rawResults df_target df_hist cols m =
      rawResults df_target df_hist cols "mae" := by
    intro cols
    simp only [rawResults]
    congr 1
    funext dt
    split
    · congr 2
      funext col
      exact hcm _ _ _
    · rfl
  simp only [find_like_days]
  rw [hraw]

/-- Witness for C9 at the unknown metric name "manhattan". -/
theorem unknown_metric_equals_mae_witness :
    compute_metric [3] "manhattan" none none =
        compute_metric [3] "mae" none none ∧
      find_like_days cxTarget cxHist (some [("f", 1)]) FEATURE_COLS 5
          "manhattan" =
        find_like_days cxTarget cxHist (some [("f", 1)]) FEATURE_COLS 5
          "mae" :=
  ⟨(unknown_metric_equals_mae "manhattan" (by decide) (by decide) (by decide)
      (by decide)).1 [3] none none,
    (unknown_metric_equals_mae "manhattan" (by decide) (by decide) (by decide)
      (by decide)).2 cxTarget cxHist (some [("f", 1)]) FEATURE_COLS 5⟩

/-- C8: in cross-sectional normalization, whenever a feature's standard
deviation across the surviving pool is zero or undefined (all raw distances
identical, or pool of size 1), 1.0 is substituted, so the divisor used by
normalization is never zero. -/
theorem degenerate_std_substituted (raw : List RawRow) (col : String) :
    (featStats raw col).2 ≠ 0 ∧
    (sampleStd (raw.map (fun r => r.dists col)) = 0 →
      (featStats raw col).2 = 1) ∧
    ((∀ x ∈ raw.map (fun r => r.dists col),
        ∀ y ∈ raw.map (fun r => r.dists col), x = y) →
      (featStats raw col).2 = 1) ∧
    (raw.length = 1 → (featStats raw col).2 = 1) := by
  have hfs : (featStats raw col).2 =
      if sampleStd (raw.map (fun r => r.dists col)) = 0 then 1
      else sampleStd (raw.map (fun r => r.dists col)) := rfl
  refine ⟨?_, ?_, ?_, ?_⟩
  · rw [hfs]
    split
    · exact one_ne_zero
    · next hne => exact hne
  · intro h
    rw [hfs, if_pos h]
  · intro h
    rw [hfs, if_pos (sampleStd_eq_zero_of_all_eq h)]
  · intro h
    obtain ⟨r, rfl⟩ := List.length_eq_one.mp h
    rw [hfs, if_pos (sampleStd_eq_zero_of_all_eq (by simp))]

/-- Witness for C8 on a pool of size 1. -/
theorem degenerate_std_substituted_witness :
    (featStats [⟨1, fun _ => 0⟩] "f").2 ≠ 0 ∧
      (featStats [⟨1, fun _ => 0⟩] "f").2 = 1 ∧
      (featStats [⟨1, fun _ => 0⟩] "f").2 = 1 ∧
      (featStats [⟨1, fun _ => 0⟩] "f").2 = 1 :=
  ⟨(degenerate_std_substituted [⟨1, fun _ => 0⟩] "f").1,
    (degenerate_std_substituted [⟨1, fun _ => 0⟩] "f").2.1
      (by norm_num [sampleStd, mean, Real.sqrt_zero]),
    (degenerate_std_substituted [⟨1, fun _ => 0⟩] "f").2.2.1 (by simp),
    (degenerate_std_substituted [⟨1, fun _ => 0⟩] "f").2.2.2 (by simp)⟩

/-- C1: with a non-empty weight mapping, the final scalar distance assigned
to each surviving historical day equals the sum over the feature keys of
`weight_k * (raw_k - mean_k) / std_k` divided by the sum of all weights,
with `mean_k`/`std_k` the mean and standard deviation of feature `k`'s raw
distances across the whole surviving pool (`specBlendDistance`, the spec's
wording of the formula). -/
theorem blend_distance_matches_spec (df_target df_hist : List Row)
    (fw : List (String × ℝ)) (fcols : List String) (metric : String)
    (hfw : fw ≠ []) :
    blend (rawResults df_target df_hist (resolveCols (some fw) fcols) metric)
        (resolveCols (some fw) fcols) (resolveWeights (some fw)) =
      (rawResults df_target df_hist (resolveCols (some fw) fcols)
          metric).map
        (fun r =>
          { date := r.date
            distance :=
              specBlendDistance
                (rawResults df_target df_hist (resolveCols (some fw) fcols)
                  metric)
                (resolveCols (some fw) fcols) (resolveWeights (some fw))
                r }) :=
  blend_eq_spec _ _ _

/-- Witness for C1 at the concrete inputs. -/
theorem blend_distance_matches_spec_witness :
    blend
        (rawResults cxTarget cxHist
          (resolveCols (some [("f", 1)]) FEATURE_COLS) "mae")
        (resolveCols (some [("f", 1)]) FEATURE_COLS)
        (resolveWeights (some [("f", 1)])) =
      (rawResults cxTarget cxHist
          (resolveCols (some [("f", 1)]) FEATURE_COLS) "mae").map
        (fun r =>
          { date := r.date
            distance :=
              specBlendDistance
                (rawResults cxTarget cxHist
                  (resolveCols (some [("f", 1)]) FEATURE_COLS) "mae")
                (resolveCols (some [("f", 1)]) FEATURE_COLS)
                (resolveWeights (some [("f", 1)])) r }) :=
  blend_distance_matches_spec cxTarget cxHist [("f", 1)] FEATURE_COLS "mae"
    (List.cons_ne_nil _ _)

/-- C5: a historical day whose number of hourly rows differs from the
target day's never appears in the output, however close its values; it is
dropped before distance computation (it has no raw-distance row at all). -/
theorem mismatched_hour_count_excluded (df_target df_hist : List Row)
    (fw : Option (List (String × ℝ))) (fcols : List String) (n : ℕ)
    (metric : String) (dt : ℤ)
    (hcount : (dateGroup df_hist dt).length ≠ df_target.length)
    (res : List MatchResult)
    (hres : find_like_days df_target df_hist fw fcols n metric =
      Except.ok res) :
    (∀ m ∈ res, m.date ≠ dt) ∧
      ∀ r ∈ rawResults df_target df_hist (resolveCols fw fcols) metric,
        r.date ≠ dt := by
  have hraw : ∀ r ∈ rawResults df_target df_hist (resolveCols fw fcols)
      metric, r.date ≠ dt := by
    intro r hr heq
    have hlen := (rawResults_mem_date hr).1
    rw [heq] at hlen
    exact hcount hlen
  refine ⟨?_, hraw⟩
  intro m hm
  obtain ⟨hres_eq, _, _⟩ := find_like_days_ok hres
  rw [hres_eq, finalize_def] at hm
  obtain ⟨b, hb, hdate, _, _⟩ := mem_rankFrom hm
  obtain ⟨r, hrmem, hbd, _⟩ := mem_blend (mem_nsmallest hb)
  rw [hdate, hbd]
  exact hraw r hrmem

/-- Witness for C5: date 4 has two hourly rows while the target has one, so
it appears neither in the output nor among the raw-distance rows. -/
theorem mismatched_hour_count_excluded_witness :
    (∀ m ∈ ([⟨1, 1, -1, 1⟩, ⟨2, 2, 0, 1 / 2⟩, ⟨3, 3, 1, 0⟩] :
        List MatchResult), m.date ≠ 4) ∧
      ∀ r ∈ rawResults cxTarget cxHist
          (resolveCols (some [("f", 1)]) FEATURE_COLS) "mae",
        r.date ≠ 4 :=
  mismatched_hour_count_excluded cxTarget cxHist (some [("f", 1)])
    FEATURE_COLS 5 "mae" 4 (by simp [dateGroup, cxHist, cxTarget]) _ cx_eval

/-- C6: `find_like_days` fails with a validation error exactly when the
target day has zero hourly rows, or the historical pool is empty, or no
historical day has the target's hour-count; an error and a result are
mutually exclusive, so no partial output accompanies a failure. -/
theorem validation_error_iff (df_target df_hist : List Row)
    (fw : Option (List (String × ℝ))) (fcols : List String) (n : ℕ)
    (metric : String) :
    (∃ e, find_like_days df_target df_hist fw fcols n metric =
        Except.error e) ↔
      df_target = [] ∨ df_hist = [] ∨
        ∀ dt ∈ df_hist.map Row.date,
          (dateGroup df_hist dt).length ≠ df_target.length := by
  by_cases h0 : (sortByHour df_target).length = 0
  · have htgt : df_target = [] := by
      rw [length_sortByHour, List.length_eq_zero] at h0
      exact h0
    constructor
    · intro _
      exact Or.inl htgt
    · intro _
      refine ⟨"Target date has no hourly data", ?_⟩
      simp only [find_like_days]
      rw [if_pos h0]
  · have htgt : df_target ≠ [] := by
      intro h
      apply h0
      rw [length_sortByHour, h, List.length_nil]
    rcases hraw : rawResults df_target df_hist (resolveCols fw fcols) metric
      with _ | ⟨r, rs⟩
    · constructor
      · intro _
        exact Or.inr (Or.inr (rawResults_eq_nil_iff.mp hraw))
      · intro _
        refine ⟨"No historical days matched the target hours", ?_⟩
        simp only [find_like_days]
        rw [if_neg h0, hraw]
    · constructor
      · rintro ⟨e, he⟩
        exfalso
        simp only [find_like_days] at he
        rw [if_neg h0, hraw] at he
        cases he
      · rintro (h | h | h)
        · exact absurd h htgt
        · exfalso
          have hnil : rawResults df_target df_hist (resolveCols fw fcols)
              metric = [] := by
            apply rawResults_eq_nil_iff.mpr
            subst h
            simp
          exact absurd (hnil.symm.trans hraw) (by simp)
        · exact absurd (((rawResults_eq_nil_iff.mpr h).symm.trans hraw))
            (by simp)

/-- C2, counterexample: with a pool of four historical days (three of them
surviving) and `n_neighbors = 5`, the rank column is `[1, 2, 3]`, not
`1..n_neighbors = [1, 2, 3, 4, 5]` — the output is capped by the surviving
pool size. -/
theorem ranks_complete_counterexample :
    (find_like_days cxTarget cxHist (some [("f", 1)]) FEATURE_COLS 5
        "mae").map (fun res => res.map MatchResult.rank) ≠
      Except.ok [1, 2, 3, 4, 5] := by
  rw [cx_eval]
  simp [Except.map]

/-- C2, amended: for every successful run the output is sorted by
non-decreasing distance and the rank column is exactly `1..K` with no gaps,
where `K = min n_neighbors (number of surviving historical days)`. -/
theorem ranking_sorted_and_ranks_complete (df_target df_hist : List Row)
    (fw : Option (List (String × ℝ))) (fcols : List String) (n : ℕ)
    (metric : String) (hpool : 2 ≤ (groupDates df_hist).length)
    (res : List MatchResult)
    (hres : find_like_days df_target df_hist fw fcols n metric =
      Except.ok res) :
    List.Sorted (· ≤ ·) (res.map MatchResult.distance) ∧
      res.map MatchResult.rank =
        List.range' 1 (min n
          (rawResults df_target df_hist (resolveCols fw fcols)
            metric).length) := by
  obtain ⟨hres_eq, _, _⟩ := find_like_days_ok hres
  subst hres_eq
  constructor
  · rw [finalize_def, rankFrom_map_distance]
    exact List.pairwise_map.mpr (sorted_nsmallest n _)
  · rw [finalize_def, rankFrom_map_rank, length_nsmallest, length_blend]

/-- Witness for C2 (amended) at the concrete inputs, where three days
survive and K = min 5 3 = 3. -/
theorem ranking_sorted_and_ranks_complete_witness :
    List.Sorted (· ≤ ·)
        (([⟨1, 1, -1, 1⟩, ⟨2, 2, 0, 1 / 2⟩, ⟨3, 3, 1, 0⟩] :
          List MatchResult).map MatchResult.distance) ∧
      ([⟨1, 1, -1, 1⟩, ⟨2, 2, 0, 1 / 2⟩, ⟨3, 3, 1, 0⟩] :
          List MatchResult).map MatchResult.rank =
        List.range' 1 (min 5
          (rawResults cxTarget cxHist
            (resolveCols (some [("f", 1)]) FEATURE_COLS) "mae").length) :=
  ranking_sorted_and_ranks_complete cxTarget cxHist (some [("f", 1)])
    FEATURE_COLS 5 "mae" (by rw [cx_groupDates]; norm_num) _ cx_eval

/-- C3: every similarity of a successful run lies in [0, 1]; when the
maximum selected distance exceeds the minimum, each similarity is
`1 − (distance − min)/(max − min)`, so a smallest-distance result has
similarity exactly 1 and a largest-distance result exactly 0; when all
selected distances are equal, every similarity is 1. -/
theorem similarity_bounds_and_formula (df_target df_hist : List Row)
    (fw : Option (List (String × ℝ))) (fcols : List String) (n : ℕ)
    (metric : String) (res : List MatchResult)
    (hres : find_like_days df_target df_hist fw fcols n metric =
      Except.ok res) :
    (∀ m ∈ res, 0 ≤ m.similarity ∧ m.similarity ≤ 1) ∧
    (listMin (res.map MatchResult.distance) <
        listMax (res.map MatchResult.distance) →
      ∀ m ∈ res,
        m.similarity =
          1 - (m.distance - listMin (res.map MatchResult.distance)) /
            (listMax (res.map MatchResult.distance) -
              listMin (res.map MatchResult.distance)) ∧
        (m.distance = listMin (res.map MatchResult.distance) →
          m.similarity = 1) ∧
        (m.distance = listMax (res.map MatchResult.distance) →
          m.similarity = 0)) ∧
    (listMax (res.map MatchResult.distance) =
        listMin (res.map MatchResult.distance) →
      ∀ m ∈ res, m.similarity = 1) := by
  obtain ⟨hres_eq, _, _⟩ := find_like_days_ok hres
  subst hres_eq
  exact finalize_similarity n _

/-- Witness for C3 at the concrete inputs (selected distances −1, 0, 1). -/
theorem similarity_bounds_and_formula_witness :
    (∀ m ∈ ([⟨1, 1, -1, 1⟩, ⟨2, 2, 0, 1 / 2⟩, ⟨3, 3, 1, 0⟩] :
        List MatchResult), 0 ≤ m.similarity ∧ m.similarity ≤ 1) ∧
    (listMin (([⟨1, 1, -1, 1⟩, ⟨2, 2, 0, 1 / 2⟩, ⟨3, 3, 1, 0⟩] :
          List MatchResult).map MatchResult.distance) <
        listMax (([⟨1, 1, -1, 1⟩, ⟨2, 2, 0, 1 / 2⟩, ⟨3, 3, 1, 0⟩] :
          List MatchResult).map MatchResult.distance) →
      ∀ m ∈ ([⟨1, 1, -1, 1⟩, ⟨2, 2, 0, 1 / 2⟩, ⟨3, 3, 1, 0⟩] :
          List MatchResult),
        m.similarity =
          1 - (m.distance -
              listMin (([⟨1, 1, -1, 1⟩, ⟨2, 2, 0, 1 / 2⟩, ⟨3, 3, 1, 0⟩] :
                List MatchResult).map MatchResult.distance)) /
            (listMax (([⟨1, 1, -1, 1⟩, ⟨2, 2, 0, 1 / 2⟩, ⟨3, 3, 1, 0⟩] :
                List MatchResult).map MatchResult.distance) -
              listMin (([⟨1, 1, -1, 1⟩, ⟨2, 2, 0, 1 / 2⟩, ⟨3, 3, 1, 0⟩] :
                List MatchResult).map MatchResult.distance)) ∧
        (m.distance =
            listMin (([⟨1, 1, -1, 1⟩, ⟨2, 2, 0, 1 / 2⟩, ⟨3, 3, 1, 0⟩] :
              List MatchResult).map MatchResult.distance) →
          m.similarity = 1) ∧
        (m.distance =
            listMax (([⟨1, 1, -1, 1⟩, ⟨2, 2, 0, 1 / 2⟩, ⟨3, 3, 1, 0⟩] :
              List MatchResult).map MatchResult.distance) →
          m.similarity = 0)) ∧
    (listMax (([⟨1, 1, -1, 1⟩, ⟨2, 2, 0, 1 / 2⟩, ⟨3, 3, 1, 0⟩] :
          List MatchResult).map MatchResult.distance) =
        listMin (([⟨1, 1, -1, 1⟩, ⟨2, 2, 0, 1 / 2⟩, ⟨3, 3, 1, 0⟩] :
          List MatchResult).map MatchResult.distance) →
      ∀ m ∈ ([⟨1, 1, -1, 1⟩, ⟨2, 2, 0, 1 / 2⟩, ⟨3, 3, 1, 0⟩] :
          List MatchResult), m.similarity = 1) :=
  similarity_bounds_and_formula cxTarget cxHist (some [("f", 1)])
    FEATURE_COLS 5 "mae" _ cx_eval

/-- C4: multiplying every feature weight by one positive constant leaves
the result of find_like_days — dates, ranks, distances and similarities —
unchanged. -/
theorem weight_scale_invariant (df_target df_hist : List Row)
    (fw : List (String × ℝ)) (fcols : List String) (n : ℕ) (metric : String)
    (c : ℝ) (hc : 0 < c) :
    find_like_days df_target df_hist
        (some (fw.map (fun p => (p.1, c * p.2)))) fcols n metric =
      find_like_days df_target df_hist (some fw) fcols n metric := by
  have hcols : resolveCols (some (fw.map (fun p => (p.1, c * p.2)))) fcols =
      resolveCols (some fw) fcols := by
    simp only [resolveCols, List.length_map]
    split
    · rw [List.map_map]
      apply List.map_congr_left
      intro p _
      rfl
    · rfl
  by_cases hfw : fw.length > 0
  · have hw1 : resolveWeights (some (fw.map (fun p => (p.1, c * p.2)))) =
        fun k => c * alookup fw k := by
      simp only [resolveWeights, List.length_map]
      rw [if_pos hfw]
      funext k
      exact alookup_scale c fw k
    have hw2 : resolveWeights (some fw) = alookup fw := by
      simp only [resolveWeights]
      rw [if_pos hfw]
    simp only [find_like_days, hcols, hw1, hw2]
    split
    · rfl
    · rcases hraw : rawResults df_target df_hist (resolveCols (some fw) fcols)
        metric with _ | ⟨r, rs⟩
      · simp only [hraw]
      · simp only [hraw]
        rw [blend_scale (r :: rs) (resolveCols (some fw) fcols) (alookup fw)
          c (ne_of_gt hc)]
  · have hw1 : resolveWeights (some (fw.map (fun p => (p.1, c * p.2)))) =
        resolveWeights (some fw) := by
      simp only [resolveWeights, List.length_map]
      rw [if_neg hfw, if_neg hfw]
    simp only [find_like_days, hcols, hw1]

/-- Witness for C4: scaling the single weight by 2 at the concrete inputs. -/
theorem weight_scale_invariant_witness :
    find_like_days cxTarget cxHist
        (some ([("f", (1 : ℝ))].map (fun p => (p.1, (2 : ℝ) * p.2))))
        FEATURE_COLS 5 "mae" =
      find_like_days cxTarget cxHist (some [("f", 1)]) FEATURE_COLS 5
        "mae" :=
  weight_scale_invariant cxTarget cxHist [("f", 1)] FEATURE_COLS 5 "mae" 2
    (by norm_num)

/-- C10: a non-empty weight mapping whose weights sum to zero does not
raise a validation error: given a non-empty target and at least one
hour-count-matching day, find_like_days returns a result; the blend divides
by the zero weight sum, so every returned distance is the degenerate
quotient `x / 0` (Lean's convention renders it 0; Python floats render it
NaN/inf — in either reading no error is reported). -/
theorem zero_weight_sum_no_error (df_target df_hist : List Row)
    (fw : List (String × ℝ)) (fcols : List String) (n : ℕ) (metric : String)
    (hfw : fw ≠ [])
    (hsum : ((fw.map Prod.fst).map (alookup fw)).sum = 0)
    (htgt : df_target ≠ [])
    (hmatch : rawResults df_target df_hist (fw.map Prod.fst) metric ≠ []) :
    ∃ res, find_like_days df_target df_hist (some fw) fcols n metric =
        Except.ok res ∧ ∀ m ∈ res, m.distance = 0 := by
  have hlen : fw.length > 0 := List.length_pos.mpr hfw
  have hcols : resolveCols (some fw) fcols = fw.map Prod.fst := by
    simp only [resolveCols]
    rw [if_pos hlen]
  have hw : resolveWeights (some fw) = alookup fw := by
    simp only [resolveWeights]
    rw [if_pos hlen]
  have h0 : ¬(sortByHour df_target).length = 0 := by
    rw [length_sortByHour, List.length_eq_zero]
    exact htgt
  rcases hraw : rawResults df_target df_hist (fw.map Prod.fst) metric
    with _ | ⟨r, rs⟩
  · exact absurd hraw hmatch
  · refine ⟨finalize n (blend (r :: rs) (fw.map Prod.fst) (alookup fw)),
      ?_, ?_⟩
    · simp only [find_like_days, hcols, hw]
      rw [if_neg h0]
      simp only [hraw]
    · intro m hm
      rw [finalize_def] at hm
      obtain ⟨b, hb, _, hdist, _⟩ := mem_rankFrom hm
      obtain ⟨r', _, _, hbd⟩ := mem_blend (mem_nsmallest hb)
      rw [hdist, hbd, hsum, div_zero]

/-- Witness for C10 with the single zero weight. -/
theorem zero_weight_sum_no_error_witness :
    ∃ res, find_like_days cxTarget czHist (some [("f", 0)]) FEATURE_COLS 5
        "mae" = Except.ok res ∧ ∀ m ∈ res, m.distance = 0 :=
  zero_weight_sum_no_error cxTarget czHist [("f", 0)] FEATURE_COLS 5 "mae"
    (List.cons_ne_nil _ _) (by norm_num [alookup]) (by simp [cxTarget])
    (by
      rw [show ([("f", (0 : ℝ))].map Prod.fst) = ["f"] from rfl, cz_raw]
      simp)

end LikeDay
